import Mathlib

/-!
# inaturalist-ntfy: the polling and notification loop of `notifier.go`

A shallow embedding of `notifier.go`.  The program is sequential; its state is
threaded explicitly through the functions below.  Everything the program learns
from outside (HTTP replies, the JSON decoder, whether a URL parses) is supplied
by a `World`.  Go maps with `struct{}` values are finite sets of keys.  A nil
pointer dereference ends the process; it is the `Exec.panic` outcome.
-/

namespace Notifier

/-! ## Outcomes of execution and the library functions used by the program -/

/-- Outcome of a block of statements: control reaches its end in state `s`, or
the goroutine panics (nil pointer dereference) in state `s`. -/
inductive Exec (σ : Type) where
  | ok (s : σ)
  | panic (s : σ)
deriving DecidableEq, Repr

/-- Sequencing of statements: a panic ends the run. -/
def Exec.andThen {σ : Type} (e : Exec σ) (k : σ → Exec σ) : Exec σ :=
  match e with
  | .ok s => k s
  | .panic s => .panic s

/-- The state carried by an outcome. -/
def Exec.state {σ : Type} : Exec σ → σ
  | .ok s => s
  | .panic s => s

/-- Whether control reached the end of the block. -/
def Exec.completed {σ : Type} : Exec σ → Bool
  | .ok _ => true
  | .panic _ => false

/-- Value of a string of ASCII decimal digits, `none` when a character is not a digit.
The accumulator is the value of the digits read so far. -/
def parseDigits : Nat → List Char → Option Nat
  | acc, [] => some acc
  | acc, c :: cs =>
    if '0' ≤ c ∧ c ≤ '9' then parseDigits (acc * 10 + (c.toNat - '0'.toNat)) cs else none

/-- Go `strconv.Atoi` on a 64-bit platform: an optional sign, then one or more decimal
digits, with a value in the range of `int`. -/
def Atoi (s : String) : Except String Int :=
  let signed : Bool × List Char :=
    match s.data with
    | '-' :: r => (true, r)
    | '+' :: r => (false, r)
    | r => (false, r)
  match signed.2 with
  | [] => .error "invalid syntax"
  | ds =>
    match parseDigits 0 ds with
    | none => .error "invalid syntax"
    | some n =>
      if signed.1 then
        if n ≤ 2 ^ 63 then .ok (-(n : Int)) else .error "value out of range"
      else
        if n < 2 ^ 63 then .ok (n : Int) else .error "value out of range"

/-- Pieces of a character list between commas. -/
def splitComma : List Char → List (List Char)
  | [] => [[]]
  | c :: cs =>
    if c = ',' then [] :: splitComma cs
    else
      match splitComma cs with
      | [] => [[c]]
      | p :: ps => (c :: p) :: ps

/-- Go `strings.Split(s, ",")`. -/
def Split (s : String) : List String :=
  (splitComma s.data).map String.mk

/-- Go `time.Time`, by the calendar fields of the instant in its own location. -/
structure Time where
  Year : Nat
  Month : Nat
  Day : Nat
  Hour : Nat
  Minute : Nat
  Second : Nat
deriving DecidableEq, Repr

/-- Go `time.appendInt`: decimal digits of `x`, padded on the left with zeros to `width`. -/
def appendInt (x width : Nat) : List Char :=
  List.replicate (width - (Nat.toDigits 10 x).length) '0' ++ Nat.toDigits 10 x

/-- Interpreter for the layout elements `2006`, `01`, `02`, `15`, `04`, `05`; any other
character of the layout is copied. -/
def formatLayout (t : Time) : List Char → List Char
  | '2' :: '0' :: '0' :: '6' :: rest => appendInt t.Year 4 ++ formatLayout t rest
  | '0' :: '1' :: rest => appendInt t.Month 2 ++ formatLayout t rest
  | '0' :: '2' :: rest => appendInt t.Day 2 ++ formatLayout t rest
  | '1' :: '5' :: rest => appendInt t.Hour 2 ++ formatLayout t rest
  | '0' :: '4' :: rest => appendInt t.Minute 2 ++ formatLayout t rest
  | '0' :: '5' :: rest => appendInt t.Second 2 ++ formatLayout t rest
  | c :: rest => c :: formatLayout t rest
  | [] => []

/-- Go `time.Time.Format`. -/
def Time.Format (t : Time) (layout : String) : String :=
  String.mk (formatLayout t layout.data)

/-- Go `http.Request`, by the parts the program sets. -/
structure Request where
  Method : String
  URL : String
  Query : List (String × String)
  Header : List (String × String)
  Body : String
deriving DecidableEq, Repr

/-- Go `http.Header.Set`: the value replaces any earlier value of the key. -/
def Request.Set (req : Request) (key value : String) : Request :=
  { req with Header := req.Header.filter (fun kv => kv.1 ≠ key) ++ [(key, value)] }

/-- Go `http.Header.Get`. -/
def Request.Get (req : Request) (key : String) : Option String :=
  (req.Header.find? (fun kv => kv.1 = key)).map Prod.snd

/-- Go `http.Response`: the status code and what `ioutil.ReadAll(resp.Body)` yields. -/
structure Response where
  StatusCode : Int
  Body : Except String String

/-- Result `(resp, err)` of `client.Do`. -/
inductive DoResult where
  /-- A reply `(resp, nil)`. -/
  | response (resp : Response)
  /-- A transport failure `(nil, err)`. -/
  | failure (err : String)
  /-- The pair `(resp, err)` with both set, which `client.Do` returns when following a
  redirect fails. -/
  | redirectFailure (resp : Response) (err : String)

/-! ## Data model of `notifier.go` -/

/-- The fields of `APIResponseResult` that the program reads. -/
structure APIResponseResult where
  UUID : String
  CreatedAt : Time
  ID : Int
  Obscured : Bool
  ObservedOn : String
  PlaceGuess : String
  QualityGrade : String
  TaxonPreferredCommonName : String
deriving DecidableEq, Repr

/-- The decoded reply of the observation API. -/
structure APIResponse where
  TotalResults : Int
  Page : Int
  PerPage : Int
  Results : List APIResponseResult
deriving DecidableEq, Repr

/-- The tracker. -/
structure Tracker where
  SeenUUID : Finset String
  TaxonIDs : List Int
  PlaceID : Int
  NtfyURL : String
  NtfyToken : String
deriving DecidableEq

/-- Everything outside the process.  `Get k` is what `client.Do` returns in the `k`-th call
of `GetObservation` and `Post k` what it returns the `k`-th time `SendNotification` calls
it, both counted from the start of the run. -/
structure World where
  urlParses : String → Bool
  Get : Nat → Request → DoResult
  Post : Nat → Request → DoResult
  Unmarshal : String → Except String APIResponse

/-- The variables of `main` once the loop runs, with the record of what the process did:
`gets` counts the calls of `GetObservation`, `sent` lists the requests that
`SendNotification` handed to `client.Do`, `stdout` is what was printed. -/
structure State where
  tracker : Tracker
  firstRun : Bool
  thisRunUUID : Finset String
  gets : Nat
  sent : List Request
  stdout : List String
deriving DecidableEq

/-- The effect of `fmt.Printf`. -/
def State.print (s : State) (line : String) : State :=
  { s with stdout := s.stdout ++ [line] }

/-! ## Operations -/

/-- The method `Tracker.Seen`. -/
def Tracker.Seen (t : Tracker) (uuid : String) : Bool :=
  if uuid ∈ t.SeenUUID then true else false

/-- The method `Tracker.AddID`: the tracker afterwards, and the error if any. -/
def Tracker.AddID (t : Tracker) (idStr : String) : Tracker × Option String :=
  match Atoi idStr with
  | .error err => (t, some err)
  | .ok id => ({ t with TaxonIDs := t.TaxonIDs ++ [id] }, none)

/-- The function `NewTracker`. -/
def NewTracker : Tracker :=
  { SeenUUID := ∅, TaxonIDs := [], PlaceID := 0, NtfyURL := "", NtfyToken := "" }

/-- Go `http.NewRequest`: fails when the URL does not parse. -/
def NewRequest (w : World) (method url body : String) : Except String Request :=
  if w.urlParses url then
    .ok { Method := method, URL := url, Query := [], Header := [], Body := body }
  else .error "invalid URL"

/-- The value of the `Actions` header for an observation id. -/
def actionsHeader (observationID : Int) : String :=
  "view, Open Observation, https://www.inaturalist.org/observations/" ++
    toString observationID ++ ", clear=true"

/-- The method `Tracker.SendNotification`, on the tracker of the state `s`. -/
def SendNotification (w : World) (s : State) (titleStr bodyStr : String)
    (observationID : Int) : Exec State :=
  match NewRequest w "POST" s.tracker.NtfyURL bodyStr with
  | .error err =>
    -- the error is printed, then `req.Header.Set` dereferences the nil request
    .panic (s.print ("error creating request " ++ err ++ "\n"))
  | .ok req =>
    let req := req.Set "Title" titleStr
    let req := req.Set "Actions" (actionsHeader observationID)
    let req := req.Set "Content-Type" "text/plain"
    let req := req.Set "Authorization" ("Bearer " ++ s.tracker.NtfyToken)
    let s1 : State := { s with sent := s.sent ++ [req] }
    match w.Post s.sent.length req with
    | .failure err =>
      -- the error is printed, then `resp.StatusCode` dereferences the nil response
      .panic (s1.print ("error sending notification: " ++ err ++ "\n"))
    | .redirectFailure resp err =>
      let s2 := s1.print ("error sending notification: " ++ err ++ "\n")
      if resp.StatusCode ≠ 200 then
        .ok (s2.print ("error sending notification: " ++ toString resp.StatusCode ++ "\n"))
      else .ok s2
    | .response resp =>
      if resp.StatusCode ≠ 200 then
        .ok (s1.print ("error sending notification: " ++ toString resp.StatusCode ++ "\n"))
      else .ok s1

/-- The method `APIResponseResult.ObscuredAsString`. -/
def APIResponseResult.ObscuredAsString (r : APIResponseResult) : String :=
  if r.Obscured then "yes" else "no"

/-- The query parameters set by `GetObservation`. -/
def observationQuery (taxon place : Int) : List (String × String) :=
  [("verifiable", "true"), ("order_by", "created_at"), ("order", "desc"), ("page", "1"),
   ("spam", "false"), ("taxon_id", toString taxon), ("place_id", toString place),
   ("locale", "en-US"), ("per_page", "50"),
   ("fields", "(created_at:!t,created_at_details:all,created_time_zone:!t,geoprivacy:!t,id:!t,location:!t,mappable:!t,obscured:!t,observed_on:!t,observed_on_details:all,observed_time_zone:!t,place_guess:!t,private_geojson:!t,quality_grade:!t,taxon:(preferred_common_name:!t))")]

/-- The function `GetObservation`, as the `k`-th fetch of the run. -/
def GetObservation (w : World) (k : Nat) (taxon place : Int) : Except String APIResponse :=
  match NewRequest w "GET" "https://api.inaturalist.org/v2/observations" "" with
  | .error err => .error ("error creating request: " ++ err)
  | .ok req =>
    let req := { req with Query := observationQuery taxon place }
    match w.Get k req with
    | .failure err => .error ("error getting observations: " ++ err)
    | .redirectFailure _ err => .error ("error getting observations: " ++ err)
    | .response resp =>
      if resp.StatusCode ≠ 200 then
        .error ("error getting observations: status code is not 200 ( " ++
          toString resp.StatusCode ++ " )")
      else
        match resp.Body with
        | .error err => .error ("error reading observations json: " ++ err)
        | .ok rbody =>
          match w.Unmarshal rbody with
          | .error err => .error ("error unmarshalling observations: " ++ err)
          | .ok r => .ok r

/-- The title of the notification for a record (`nTitle`). -/
def nTitle (o : APIResponseResult) : String :=
  o.TaxonPreferredCommonName ++ " Observation"

/-- The body of the notification for a record (`nBody`). -/
def nBody (o : APIResponseResult) : String :=
  "Observed On: " ++ o.ObservedOn ++ "\nCreated At: " ++
    o.CreatedAt.Format "2006-01-02 15:04:05" ++ "\nLocation: " ++ o.PlaceGuess ++
    "\nObscured: " ++ o.ObscuredAsString ++ "\nQuality: " ++ o.QualityGrade

/-- The body of `for _, o := range r.Results`, for one record. -/
def processRecord (w : World) (s : State) (o : APIResponseResult) : Exec State :=
  let notified : Exec State :=
    if !s.firstRun && !s.tracker.Seen o.UUID then
      (SendNotification w s (nTitle o) (nBody o) o.ID).andThen fun s =>
        .ok (s.print ("Sending notification for observation ID '" ++ toString o.ID ++ "'\n"))
    else .ok s
  notified.andThen fun s => .ok { s with thisRunUUID := insert o.UUID s.thisRunUUID }

/-- The loop `for _, o := range r.Results`. -/
def forResults (w : World) : State → List APIResponseResult → Exec State
  | s, [] => .ok s
  | s, o :: rest => (processRecord w s o).andThen fun s => forResults w s rest

/-- The body of `for _, taxon := range tracker.TaxonIDs`, for one taxon. -/
def forTaxon (w : World) (s : State) (taxon : Int) : Exec State :=
  let s := s.print ("Getting observations for taxon ID '" ++ toString taxon ++ "'\n")
  let fetched := GetObservation w s.gets taxon s.tracker.PlaceID
  let s : State := { s with gets := s.gets + 1 }
  match fetched with
  | .error err =>
    -- the error is printed, then `r.Results` dereferences the nil reply
    .panic (s.print err)
  | .ok r =>
    match r.Results with
    | [] => .ok (s.print ("No results found for Taxon ID '" ++ toString taxon ++ "'\n"))
    | o :: _ =>
      forResults w
        (s.print ("Taxon ID '" ++ toString taxon ++ "' is the '" ++
          o.TaxonPreferredCommonName ++ "'\n"))
        r.Results

/-- The loop `for _, taxon := range tracker.TaxonIDs`. -/
def forTaxa (w : World) : State → List Int → Exec State
  | s, [] => .ok s
  | s, taxon :: rest => (forTaxon w s taxon).andThen fun s => forTaxa w s rest

/-- The assignments that end a cycle: the set of this run becomes the tracker's set and
the first-run flag is cleared. -/
def install (s : State) : State :=
  { s with tracker := { s.tracker with SeenUUID := s.thisRunUUID }, firstRun := false }

/-- The classification part of one cycle: a fresh `thisRunUUID`, then every tracked taxon. -/
def classify (w : World) (s : State) : Exec State :=
  forTaxa w { s with thisRunUUID := ∅ } s.tracker.TaxonIDs

/-- One iteration of the outer `for` of `main` (the sleep changes no variable). -/
def pollCycle (w : World) (s : State) : Exec State :=
  (classify w s).andThen fun s => .ok (install s)

/-- The first `n` iterations of the outer `for` of `main`. -/
def loop (w : World) : Nat → State → Exec State
  | 0, s => .ok s
  | n + 1, s => (pollCycle w s).andThen fun s => loop w n s

/-- The environment variables read by `main`; a variable that is not set reads as `""`. -/
structure Env where
  TAXON_IDS : String
  PLACE_ID : String
  NTFY_TOKEN : String
  NTFY_URL : String
deriving DecidableEq, Repr

/-- The loop `for _, tid := range strings.Split(taxonIDs, ",")`: the result of `AddID`
is dropped. -/
def addIDs (t : Tracker) : List String → Tracker
  | [] => t
  | tid :: rest => addIDs (t.AddID tid).1 rest

/-- The part of `main` before the loop: the diagnostic printed when `main` returns early,
or the state in which the loop is entered. -/
def startup (env : Env) : Except String State :=
  let firstRun := true
  let taxonIDs := env.TAXON_IDS
  let placeIDStr := env.PLACE_ID
  let tracker := NewTracker
  let tracker := { tracker with NtfyToken := env.NTFY_TOKEN }
  let tracker := { tracker with NtfyURL := env.NTFY_URL }
  if tracker.NtfyToken = "" then .error "ERROR: NTFY_TOKEN needs to be set.\n"
  else if tracker.NtfyURL = "" then
    .error "ERROR: NTFY_URL should be the URL to your Ntfy sub.\n"
  else if placeIDStr = "" then
    .error "ERROR: PLACE_ID should be the URL to your Ntfy sub.\n"
  else if taxonIDs = "" then
    .error "ERROR: TAXON_IDS should be a list of taxon IDs, separated by commas. No spaces.\n"
  else
    match Atoi placeIDStr with
    | .error _ => .error "ERROR: Unable to convert place ID to integer\n"
    | .ok placeID =>
      let tracker := { tracker with PlaceID := placeID }
      let tracker := addIDs tracker (Split taxonIDs)
      .ok { tracker := tracker, firstRun := firstRun, thisRunUUID := ∅, gets := 0,
            sent := [], stdout := [] }

/-- The function `main`, cut after `n` iterations of its loop: `none` when it returned
before the loop. -/
def main (env : Env) (w : World) (n : Nat) : Option (Exec State) :=
  match startup env with
  | .error _ => none
  | .ok s => some (loop w n s)

/-! ## Derived notions used to state the properties -/

/-- The request that `SendNotification` hands to `client.Do`, in closed form. -/
def notificationRequest (t : Tracker) (titleStr bodyStr : String) (observationID : Int) :
    Request :=
  { Method := "POST", URL := t.NtfyURL, Query := [],
    Header := [("Title", titleStr), ("Actions", actionsHeader observationID),
               ("Content-Type", "text/plain"), ("Authorization", "Bearer " ++ t.NtfyToken)],
    Body := bodyStr }

/-- The notification request for a record. -/
def requestFor (t : Tracker) (o : APIResponseResult) : Request :=
  notificationRequest t (nTitle o) (nBody o) o.ID

/-- The test of line 223: the record is notified when the run is not the first and its
UUID is not in the tracker's set. -/
def isNew (firstRun : Bool) (seen : Finset String) (o : APIResponseResult) : Bool :=
  !firstRun && decide (o.UUID ∉ seen)

/-- The records returned by the fetches `k`, `k + 1`, ... issued for the taxa of a cycle,
target by target in the order of the list and within a target in the order received.  A
fetch that fails returns no record. -/
def fetchedRecords (w : World) (place : Int) : Nat → List Int → List APIResponseResult
  | _, [] => []
  | k, taxon :: rest =>
    (match GetObservation w k taxon place with
     | .ok r => r.Results
     | .error _ => []) ++ fetchedRecords w place (k + 1) rest

/-- The set of UUIDs of a list of records. -/
def uuidSet (rs : List APIResponseResult) : Finset String :=
  (rs.map (fun o => o.UUID)).toFinset

/-- The notification requests expected from processing the records `rs` from state `s`. -/
def expectedRequests (s : State) (rs : List APIResponseResult) : List Request :=
  (rs.filter (isNew s.firstRun s.tracker.SeenUUID)).map (requestFor s.tracker)

/-- The relation between the state `s` before a block that processes the records `rs`
and the outcome `e` of that block: the tracker and the flag are untouched, the requests
sent are an initial segment of the expected ones, and all of them when the block ends. -/
def Processes (s : State) (rs : List APIResponseResult) (e : Exec State) : Prop :=
  e.state.tracker = s.tracker ∧ e.state.firstRun = s.firstRun ∧
  (∃ l, l <+: expectedRequests s rs ∧ e.state.sent = s.sent ++ l) ∧
  (∀ s', e = .ok s' →
    s'.sent = s.sent ++ expectedRequests s rs ∧
    s'.thisRunUUID = s.thisRunUUID ∪ uuidSet rs)

/-- Every fetch for the place returns a decoded reply. -/
def Fetches (w : World) (place : Int) : Prop :=
  ∀ k taxon, ∃ r, GetObservation w k taxon place = .ok r

/-- No call of `SendNotification` from state `s` can fault: either the run is the first
(no call is made), or the notification URL parses and `client.Do` never returns a nil
response. -/
def Delivers (w : World) (s : State) : Prop :=
  s.firstRun = true ∨
    (w.urlParses s.tracker.NtfyURL = true ∧ ∀ k req err, w.Post k req ≠ .failure err)

/-- A calendar time as an RFC 3339 timestamp can carry it. -/
def Time.InRange (t : Time) : Prop :=
  t.Year ≤ 9999 ∧ 1 ≤ t.Month ∧ t.Month ≤ 12 ∧ 1 ≤ t.Day ∧ t.Day ≤ 31 ∧
    t.Hour ≤ 23 ∧ t.Minute ≤ 59 ∧ t.Second ≤ 59

instance (t : Time) : Decidable t.InRange := by
  unfold Time.InRange
  infer_instance

/-- The two decimal digits of a number below 100. -/
def twoDigits (n : Nat) : List Char :=
  [Nat.digitChar (n / 10), Nat.digitChar (n % 10)]

/-- The text `YYYY-MM-DD HH:MM:SS` of a calendar time, digit by digit. -/
def stampYMDHMS (t : Time) : List Char :=
  [Nat.digitChar (t.Year / 1000), Nat.digitChar (t.Year / 100 % 10),
   Nat.digitChar (t.Year / 10 % 10), Nat.digitChar (t.Year % 10)] ++ ['-'] ++
  twoDigits t.Month ++ ['-'] ++ twoDigits t.Day ++ [' '] ++
  twoDigits t.Hour ++ [':'] ++ twoDigits t.Minute ++ [':'] ++ twoDigits t.Second

/-! ## Concrete runs -/

/-- A creation time used in the examples. -/
def sampleTime : Time :=
  { Year := 2024, Month := 3, Day := 9, Hour := 7, Minute := 5, Second := 2 }

/-- A platypus record with the given UUID and numeric id. -/
def sampleRecord (uuid : String) (id : Int) : APIResponseResult :=
  { UUID := uuid, CreatedAt := sampleTime, ID := id, Obscured := false,
    ObservedOn := "2024-03-09", PlaceGuess := "Hobart", QualityGrade := "research",
    TaxonPreferredCommonName := "Platypus" }

/-- A reply body is decoded by looking it up: `"abc"` holds the records A, B, C, `"abd"` the
records A, B, D, `"d"` the record D, `"de"` the records D, E and `"none"` no record. -/
def sampleUnmarshal (body : String) : Except String APIResponse :=
  let reply (rs : List APIResponseResult) : Except String APIResponse :=
    .ok { TotalResults := rs.length, Page := 1, PerPage := 50, Results := rs }
  if body = "abc" then
    reply [sampleRecord "A" 1, sampleRecord "B" 2, sampleRecord "C" 3]
  else if body = "abd" then
    reply [sampleRecord "A" 1, sampleRecord "B" 2, sampleRecord "D" 4]
  else if body = "d" then reply [sampleRecord "D" 4]
  else if body = "de" then reply [sampleRecord "D" 4, sampleRecord "E" 5]
  else if body = "none" then reply []
  else .error "unexpected end of JSON input"

/-- A reply with status 200 and the given body. -/
def okReply (body : String) : DoResult :=
  .response { StatusCode := 200, Body := .ok body }

/-- A world in which the `k`-th fetch is answered with the `k`-th body of `bodies` (and
with `"none"` after the end of the list) and every notification is accepted. -/
def worldOf (bodies : List String) : World :=
  { urlParses := fun _ => true
    Get := fun k _ => okReply (bodies.getD k "none")
    Post := fun _ _ => okReply ""
    Unmarshal := sampleUnmarshal }

/-- A complete configuration with one tracked taxon. -/
def sampleEnv : Env :=
  { TAXON_IDS := "43236", PLACE_ID := "6744", NTFY_TOKEN := "tk_secret",
    NTFY_URL := "https://ntfy.sh/platypus" }

/-- The tracker built from `sampleEnv`. -/
def sampleTracker : Tracker :=
  { SeenUUID := ∅, TaxonIDs := [43236], PlaceID := 6744,
    NtfyURL := "https://ntfy.sh/platypus", NtfyToken := "tk_secret" }

/-- The state in which the loop is entered for `sampleEnv`. -/
def sampleStart : State :=
  { tracker := sampleTracker, firstRun := true, thisRunUUID := ∅, gets := 0, sent := [],
    stdout := [] }

/-- A state of a later cycle: the flag is cleared and the tracker's set is `seen`. -/
def laterState (taxa : List Int) (seen : Finset String) : State :=
  { tracker := { sampleTracker with SeenUUID := seen, TaxonIDs := taxa }, firstRun := false,
    thisRunUUID := ∅, gets := 0, sent := [], stdout := [] }

/-- A world whose first fetch is answered with status 500 and whose later fetches return the
record D. -/
def fetchErrorWorld : World :=
  { urlParses := fun _ => true
    Get := fun k _ =>
      if k = 0 then .response { StatusCode := 500, Body := .ok "" } else okReply "d"
    Post := fun _ _ => okReply ""
    Unmarshal := sampleUnmarshal }

/-- A world whose fetch returns the records D, E and in which `client.Do` fails on every
notification with a transport error and no response. -/
def sendFailureWorld : World :=
  { urlParses := fun _ => true
    Get := fun _ _ => okReply "de"
    Post := fun _ _ => .failure "dial tcp: connection refused"
    Unmarshal := sampleUnmarshal }

/-- A world whose fetch returns the records D, E and in which every notification is
answered with status 503. -/
def sendRejectedWorld : World :=
  { urlParses := fun _ => true
    Get := fun _ _ => okReply "de"
    Post := fun _ _ => .response { StatusCode := 503, Body := .ok "" }
    Unmarshal := sampleUnmarshal }

/-- The configuration `sampleEnv` with a blank inside the taxon list. -/
def spacedEnv : Env :=
  { sampleEnv with TAXON_IDS := "1, 2" }

/-! ## Facts about the operations -/

@[simp] theorem andThen_ok {σ : Type} (s : σ) (k : σ → Exec σ) :
    (Exec.ok s).andThen k = k s := rfl

@[simp] theorem andThen_panic {σ : Type} (s : σ) (k : σ → Exec σ) :
    (Exec.panic s).andThen k = .panic s := rfl

theorem isNew_eq (s : State) (o : APIResponseResult) :
    (!s.firstRun && !s.tracker.Seen o.UUID) = isNew s.firstRun s.tracker.SeenUUID o := by
  unfold isNew Tracker.Seen
  by_cases h : o.UUID ∈ s.tracker.SeenUUID <;> simp [h]

theorem SendNotification_request (w : World) (s : State) (titleStr bodyStr : String)
    (observationID : Int) (req : Request)
    (h : NewRequest w "POST" s.tracker.NtfyURL bodyStr = .ok req) :
    (((req.Set "Title" titleStr).Set "Actions" (actionsHeader observationID)).Set
        "Content-Type" "text/plain").Set "Authorization" ("Bearer " ++ s.tracker.NtfyToken)
      = notificationRequest s.tracker titleStr bodyStr observationID := by
  unfold NewRequest at h
  split at h
  · injection h with h
    subst h
    simp [Request.Set, notificationRequest]
  · cases h

/-- What a call of `SendNotification` does to the state, whatever the outcome. -/
theorem SendNotification_spec (w : World) (s : State) (titleStr bodyStr : String)
    (observationID : Int) :
    (SendNotification w s titleStr bodyStr observationID).state.tracker = s.tracker ∧
    (SendNotification w s titleStr bodyStr observationID).state.firstRun = s.firstRun ∧
    (SendNotification w s titleStr bodyStr observationID).state.gets = s.gets ∧
    (SendNotification w s titleStr bodyStr observationID).state.thisRunUUID = s.thisRunUUID ∧
    ((SendNotification w s titleStr bodyStr observationID).state.sent = s.sent ∨
      (SendNotification w s titleStr bodyStr observationID).state.sent =
        s.sent ++ [notificationRequest s.tracker titleStr bodyStr observationID]) ∧
    ((SendNotification w s titleStr bodyStr observationID).completed = true →
      (SendNotification w s titleStr bodyStr observationID).state.sent =
        s.sent ++ [notificationRequest s.tracker titleStr bodyStr observationID]) := by
  unfold SendNotification
  split
  · simp [Exec.state, Exec.completed, State.print]
  · rename_i req hreq
    have hchain := SendNotification_request w s titleStr bodyStr observationID req hreq
    simp only [hchain]
    split
    · simp [Exec.state, Exec.completed, State.print]
    · split <;> simp [Exec.state, Exec.completed, State.print]
    · split <;> simp [Exec.state, Exec.completed, State.print]

theorem uuidSet_append (rs₁ rs₂ : List APIResponseResult) :
    uuidSet (rs₁ ++ rs₂) = uuidSet rs₁ ∪ uuidSet rs₂ := by
  simp [uuidSet, List.toFinset_append]

theorem expectedRequests_append (s : State) (rs₁ rs₂ : List APIResponseResult) :
    expectedRequests s (rs₁ ++ rs₂) = expectedRequests s rs₁ ++ expectedRequests s rs₂ := by
  simp [expectedRequests]

theorem expectedRequests_congr (s s₁ : State) (rs : List APIResponseResult)
    (ht : s₁.tracker = s.tracker) (hf : s₁.firstRun = s.firstRun) :
    expectedRequests s₁ rs = expectedRequests s rs := by
  simp [expectedRequests, ht, hf]

theorem Processes.andThen {s : State} {rs₁ rs₂ : List APIResponseResult} {e₁ : Exec State}
    {k : State → Exec State} (h₁ : Processes s rs₁ e₁)
    (h₂ : ∀ s₁, e₁ = .ok s₁ → Processes s₁ rs₂ (k s₁)) :
    Processes s (rs₁ ++ rs₂) (e₁.andThen k) := by
  cases e₁ with
  | ok s₁ =>
    obtain ⟨ht, hf, -, hok⟩ := h₁
    obtain ⟨hsent, huu⟩ := hok s₁ rfl
    obtain ⟨ht₂, hf₂, ⟨l, hl, hl'⟩, hok₂⟩ := h₂ s₁ rfl
    simp only [Exec.state] at ht hf
    have hexp := expectedRequests_congr s s₁ rs₂ ht hf
    simp only [andThen_ok]
    refine ⟨ht₂.trans ht, hf₂.trans hf, ⟨expectedRequests s rs₁ ++ l, ?_, ?_⟩, ?_⟩
    · rw [expectedRequests_append, ← hexp]
      exact (List.prefix_append_right_inj _).2 hl
    · rw [hl', hsent, List.append_assoc]
    · intro s' hs'
      obtain ⟨h1, h2⟩ := hok₂ s' hs'
      rw [h1, h2, hsent, huu, hexp, expectedRequests_append, uuidSet_append,
        List.append_assoc, Finset.union_assoc]
      exact ⟨rfl, rfl⟩
  | panic s₁ =>
    obtain ⟨ht, hf, ⟨l, hl, hl'⟩, -⟩ := h₁
    simp only [andThen_panic]
    refine ⟨ht, hf, ⟨l, ?_, hl'⟩, ?_⟩
    · rw [expectedRequests_append]
      exact hl.trans (List.prefix_append _ _)
    · intro s' hs'
      cases hs'

theorem insert_eq_union_singleton (u : String) (U : Finset String) :
    insert u U = U ∪ {u} := by
  rw [Finset.insert_eq, Finset.union_comm]

theorem processRecord_processes (w : World) (s : State) (o : APIResponseResult) :
    Processes s [o] (processRecord w s o) := by
  unfold processRecord
  rw [isNew_eq]
  by_cases hnew : isNew s.firstRun s.tracker.SeenUUID o = true
  · obtain ⟨ht, hf, -, hu, hsent, hdone⟩ :=
      SendNotification_spec w s (nTitle o) (nBody o) o.ID
    have hexp : expectedRequests s [o] = [requestFor s.tracker o] := by
      simp [expectedRequests, hnew]
    simp only [hnew, if_true]
    cases hsn : SendNotification w s (nTitle o) (nBody o) o.ID with
    | ok s₁ =>
      rw [hsn] at ht hf hu hsent hdone
      simp only [Exec.state, Exec.completed] at ht hf hu hsent hdone
      have hs := hdone trivial
      refine ⟨?_, ?_, ⟨[requestFor s.tracker o], ?_, ?_⟩, ?_⟩
      · simpa [Exec.state, State.print] using ht
      · simpa [Exec.state, State.print] using hf
      · rw [hexp]
      · simpa [Exec.state, State.print, requestFor] using hs
      · intro s' hs'
        simp only [andThen_ok, Exec.ok.injEq] at hs'
        subst hs'
        simp [State.print, hexp, hs, hu, requestFor, uuidSet, insert_eq_union_singleton]
    | panic s₁ =>
      rw [hsn] at ht hf hsent
      simp only [Exec.state] at ht hf hsent
      refine ⟨by simpa [Exec.state] using ht, by simpa [Exec.state] using hf, ?_, ?_⟩
      · rcases hsent with h | h
        · exact ⟨[], List.nil_prefix, by simpa [Exec.state] using h⟩
        · exact ⟨[requestFor s.tracker o], by rw [hexp],
            by simpa [Exec.state, requestFor] using h⟩
      · intro s' hs'
        simp at hs'
  · have hexp : expectedRequests s [o] = [] := by
      simp [expectedRequests, hnew]
    simp only [hnew]
    refine ⟨by simp [Exec.state], by simp [Exec.state], ⟨[], List.nil_prefix, by simp [Exec.state]⟩, ?_⟩
    intro s' hs'
    simp only [Bool.false_eq_true, if_false, andThen_ok, Exec.ok.injEq] at hs'
    subst hs'
    simp [hexp, uuidSet, insert_eq_union_singleton]

theorem forResults_processes (w : World) (rs : List APIResponseResult) (s : State) :
    Processes s rs (forResults w s rs) := by
  induction rs generalizing s with
  | nil =>
    refine ⟨rfl, rfl, ⟨[], List.nil_prefix, by simp [forResults, Exec.state]⟩, ?_⟩
    intro s' hs'
    simp only [forResults, Exec.ok.injEq] at hs'
    subst hs'
    simp [expectedRequests, uuidSet]
  | cons o rest ih =>
    have h := Processes.andThen (processRecord_processes w s o)
      (fun s₁ _ => ih s₁) (k := fun s₁ => forResults w s₁ rest)
    simpa [forResults] using h

theorem Processes.congr_state {s s₀ : State} {rs : List APIResponseResult} {e : Exec State}
    (h : Processes s₀ rs e) (ht : s₀.tracker = s.tracker) (hf : s₀.firstRun = s.firstRun)
    (hs : s₀.sent = s.sent) (hu : s₀.thisRunUUID = s.thisRunUUID) : Processes s rs e := by
  unfold Processes at *
  rw [expectedRequests_congr s s₀ rs ht hf, ht, hf, hs, hu] at h
  exact h

theorem processRecord_gets (w : World) (s : State) (o : APIResponseResult) :
    (processRecord w s o).state.gets = s.gets := by
  unfold processRecord
  obtain ⟨-, -, hg, -⟩ := SendNotification_spec w s (nTitle o) (nBody o) o.ID
  split
  · cases hsn : SendNotification w s (nTitle o) (nBody o) o.ID with
    | ok s₁ => rw [hsn] at hg; simpa [Exec.state, State.print] using hg
    | panic s₁ => rw [hsn] at hg; simpa [Exec.state] using hg
  · simp [Exec.state]

theorem forResults_gets (w : World) (rs : List APIResponseResult) (s : State) :
    (forResults w s rs).state.gets = s.gets := by
  induction rs generalizing s with
  | nil => rfl
  | cons o rest ih =>
    have h := processRecord_gets w s o
    unfold forResults
    cases hp : processRecord w s o with
    | ok s₁ => rw [hp] at h; simp only [andThen_ok, ih s₁]; exact h
    | panic s₁ => rw [hp] at h; exact h

theorem forTaxon_gets (w : World) (s : State) (taxon : Int) :
    (forTaxon w s taxon).state.gets = s.gets + 1 := by
  unfold forTaxon
  simp only [State.print]
  split
  · rfl
  · split
    · rfl
    · rw [forResults_gets]

theorem forTaxon_processes (w : World) (s : State) (taxon : Int) :
    Processes s (fetchedRecords w s.tracker.PlaceID s.gets [taxon]) (forTaxon w s taxon) := by
  unfold forTaxon
  simp only [State.print, fetchedRecords, List.append_nil]
  cases hg : GetObservation w s.gets taxon s.tracker.PlaceID with
  | error err =>
    refine ⟨rfl, rfl, ⟨[], List.nil_prefix, by simp [Exec.state]⟩, ?_⟩
    intro s' hs'
    cases hs'
  | ok r =>
    cases hr : r.Results with
    | nil =>
      simp only [hr]
      refine ⟨rfl, rfl, ⟨[], List.nil_prefix, by simp [Exec.state]⟩, ?_⟩
      intro s' hs'
      simp only [Exec.ok.injEq] at hs'
      subst hs'
      simp [expectedRequests, uuidSet]
    | cons o rest =>
      simp only [hr]
      exact (forResults_processes w (o :: rest) _).congr_state rfl rfl rfl rfl

theorem fetchedRecords_cons (w : World) (place : Int) (k : Nat) (taxon : Int)
    (rest : List Int) :
    fetchedRecords w place k (taxon :: rest) =
      fetchedRecords w place k [taxon] ++ fetchedRecords w place (k + 1) rest := by
  simp [fetchedRecords]

theorem forTaxa_processes (w : World) (taxa : List Int) (s : State) :
    Processes s (fetchedRecords w s.tracker.PlaceID s.gets taxa) (forTaxa w s taxa) := by
  induction taxa generalizing s with
  | nil =>
    refine ⟨rfl, rfl, ⟨[], List.nil_prefix, by simp [forTaxa, Exec.state]⟩, ?_⟩
    intro s' hs'
    simp only [forTaxa, Exec.ok.injEq] at hs'
    subst hs'
    simp [expectedRequests, uuidSet, fetchedRecords]
  | cons taxon rest ih =>
    rw [fetchedRecords_cons]
    unfold forTaxa
    refine Processes.andThen (forTaxon_processes w s taxon) ?_
    intro s₁ hs₁
    have hg := forTaxon_gets w s taxon
    have ht := (forTaxon_processes w s taxon).1
    rw [hs₁] at hg ht
    simp only [Exec.state] at hg ht
    have h := ih s₁
    rw [hg, ht] at h
    exact h

theorem forTaxa_gets (w : World) (taxa : List Int) (s : State) (s' : State)
    (h : forTaxa w s taxa = .ok s') : s'.gets = s.gets + taxa.length := by
  induction taxa generalizing s with
  | nil =>
    simp only [forTaxa, Exec.ok.injEq] at h
    subst h
    rfl
  | cons taxon rest ih =>
    unfold forTaxa at h
    have hg := forTaxon_gets w s taxon
    cases ht : forTaxon w s taxon with
    | ok s₁ =>
      rw [ht] at h hg
      simp only [andThen_ok] at h
      simp only [Exec.state] at hg
      rw [ih s₁ h, hg, List.length_cons]
      omega
    | panic s₁ =>
      rw [ht] at h
      cases h

theorem SendNotification_completes (w : World) (s : State) (titleStr bodyStr : String)
    (observationID : Int) (hurl : w.urlParses s.tracker.NtfyURL = true)
    (hpost : ∀ k req err, w.Post k req ≠ .failure err) :
    ∃ s', SendNotification w s titleStr bodyStr observationID = .ok s' := by
  unfold SendNotification NewRequest
  simp only [hurl, if_true]
  split
  · rename_i err h
    exact absurd h (hpost _ _ _)
  · split <;> exact ⟨_, rfl⟩
  · split <;> exact ⟨_, rfl⟩

theorem processRecord_completes (w : World) (s : State) (o : APIResponseResult)
    (hd : Delivers w s) : ∃ s', processRecord w s o = .ok s' := by
  unfold processRecord
  rcases hd with hfirst | ⟨hurl, hpost⟩
  · simp [hfirst]
  · split
    · obtain ⟨s₁, hs₁⟩ := SendNotification_completes w s (nTitle o) (nBody o) o.ID hurl hpost
      rw [hs₁]
      exact ⟨_, rfl⟩
    · exact ⟨_, rfl⟩

theorem Delivers.transfer {w : World} {s s₁ : State} (hd : Delivers w s)
    (ht : s₁.tracker = s.tracker) (hf : s₁.firstRun = s.firstRun) : Delivers w s₁ := by
  unfold Delivers at *
  rw [ht, hf]
  exact hd

theorem forResults_completes (w : World) (rs : List APIResponseResult) (s : State)
    (hd : Delivers w s) : ∃ s', forResults w s rs = .ok s' := by
  induction rs generalizing s with
  | nil => exact ⟨s, rfl⟩
  | cons o rest ih =>
    obtain ⟨s₁, hs₁⟩ := processRecord_completes w s o hd
    obtain ⟨ht, hf, -⟩ := processRecord_processes w s o
    rw [hs₁] at ht hf
    obtain ⟨s₂, hs₂⟩ := ih s₁ (hd.transfer ht hf)
    exact ⟨s₂, by simp [forResults, hs₁, hs₂]⟩

theorem forTaxon_completes (w : World) (s : State) (taxon : Int)
    (hf : Fetches w s.tracker.PlaceID) (hd : Delivers w s) :
    ∃ s', forTaxon w s taxon = .ok s' := by
  unfold forTaxon
  simp only [State.print]
  obtain ⟨r, hr⟩ := hf s.gets taxon
  rw [hr]
  cases hres : r.Results with
  | nil =>
    simp only [hres]
    exact ⟨_, rfl⟩
  | cons o rest =>
    simp only [hres]
    exact forResults_completes w (o :: rest) _ (hd.transfer rfl rfl)

theorem forTaxa_completes (w : World) (taxa : List Int) (s : State)
    (hf : Fetches w s.tracker.PlaceID) (hd : Delivers w s) :
    ∃ s', forTaxa w s taxa = .ok s' := by
  induction taxa generalizing s with
  | nil => exact ⟨s, rfl⟩
  | cons taxon rest ih =>
    obtain ⟨s₁, hs₁⟩ := forTaxon_completes w s taxon hf hd
    obtain ⟨ht, hfl, -⟩ := forTaxon_processes w s taxon
    rw [hs₁] at ht hfl
    simp only [Exec.state] at ht hfl
    obtain ⟨s₂, hs₂⟩ := ih s₁ (by rw [ht]; exact hf) (hd.transfer ht hfl)
    exact ⟨s₂, by simp [forTaxa, hs₁, hs₂]⟩

theorem classify_processes (w : World) (s : State) :
    Processes { s with thisRunUUID := ∅ }
      (fetchedRecords w s.tracker.PlaceID s.gets s.tracker.TaxonIDs) (classify w s) :=
  forTaxa_processes w s.tracker.TaxonIDs { s with thisRunUUID := ∅ }

theorem pollCycle_completes (w : World) (s : State)
    (hf : Fetches w s.tracker.PlaceID) (hd : Delivers w s) :
    ∃ s', pollCycle w s = .ok s' := by
  obtain ⟨s₁, hs₁⟩ :=
    forTaxa_completes w s.tracker.TaxonIDs { s with thisRunUUID := ∅ } hf (hd.transfer rfl rfl)
  exact ⟨install s₁, by simp [pollCycle, classify, hs₁]⟩

/-- What a cycle that runs to its end leaves behind. -/
theorem pollCycle_ok (w : World) (s s' : State) (h : pollCycle w s = .ok s') :
    s'.tracker.SeenUUID =
      uuidSet (fetchedRecords w s.tracker.PlaceID s.gets s.tracker.TaxonIDs) ∧
    s'.firstRun = false ∧
    s'.sent = s.sent ++
      expectedRequests s (fetchedRecords w s.tracker.PlaceID s.gets s.tracker.TaxonIDs) := by
  unfold pollCycle at h
  obtain ⟨-, -, -, hok⟩ := classify_processes w s
  cases hc : classify w s with
  | ok s₁ =>
    rw [hc] at h
    simp only [andThen_ok, Exec.ok.injEq] at h
    subst h
    obtain ⟨hsent, hu⟩ := hok s₁ hc
    refine ⟨?_, rfl, ?_⟩
    · simp [install, hu]
    · simpa [install, expectedRequests] using hsent
  | panic s₁ =>
    rw [hc] at h
    cases h

/-- What a cycle has sent when it stops, at its end or at a fault. -/
theorem pollCycle_sent_prefix (w : World) (s : State) :
    ∃ l, l <+: expectedRequests s
        (fetchedRecords w s.tracker.PlaceID s.gets s.tracker.TaxonIDs) ∧
      (pollCycle w s).state.sent = s.sent ++ l := by
  obtain ⟨-, -, ⟨l, hl, hl'⟩, -⟩ := classify_processes w s
  refine ⟨l, by simpa [expectedRequests] using hl, ?_⟩
  unfold pollCycle
  cases hc : classify w s with
  | ok s₁ => rw [hc] at hl'; simpa [install, Exec.state] using hl'
  | panic s₁ => rw [hc] at hl'; simpa [Exec.state] using hl'

theorem startup_firstRun (env : Env) (s : State) (h : startup env = .ok s) :
    s.firstRun = true ∧ s.tracker.SeenUUID = ∅ ∧ s.sent = [] ∧ s.gets = 0 := by
  unfold startup at h
  simp only [] at h
  split at h
  · cases h
  · split at h
    · cases h
    · split at h
      · cases h
      · split at h
        · cases h
        · split at h
          · cases h
          · injection h with h
            subst h
            have haux : ∀ (l : List String) (t : Tracker),
                (addIDs t l).SeenUUID = t.SeenUUID := by
              intro l
              induction l with
              | nil => intro t; rfl
              | cons a l ih =>
                intro t
                simp only [addIDs]
                rw [ih]
                unfold Tracker.AddID
                split <;> rfl
            refine ⟨rfl, ?_, rfl, rfl⟩
            simp only [haux]
            rfl

/-- A fetch that fails faults the taxon's iteration: control never goes on to the next
taxon. -/
theorem forTaxon_of_fetch_error (w : World) (s : State) (taxon : Int) (err : String)
    (h : GetObservation w s.gets taxon s.tracker.PlaceID = .error err) :
    (forTaxon w s taxon).completed = false ∧
    ∀ rest, (forTaxa w s (taxon :: rest)).completed = false ∧
      (forTaxa w s (taxon :: rest)).state.gets = s.gets + 1 := by
  have hp : forTaxon w s taxon = .panic
      ({ s.print ("Getting observations for taxon ID '" ++ toString taxon ++ "'\n") with
          gets := s.gets + 1 }.print err) := by
    unfold forTaxon
    simp only [State.print] at h ⊢
    rw [h]
  refine ⟨by rw [hp]; rfl, fun rest => ?_⟩
  unfold forTaxa
  rw [hp]
  exact ⟨rfl, rfl⟩

/-- A reply with a status other than 200 is only logged: `SendNotification` returns with the
request recorded and one line printed. -/
theorem SendNotification_of_status (w : World) (s : State) (titleStr bodyStr : String)
    (observationID : Int) (resp : Response)
    (hurl : w.urlParses s.tracker.NtfyURL = true)
    (hpost : ∀ req, w.Post s.sent.length req = .response resp)
    (hstatus : resp.StatusCode ≠ 200) :
    SendNotification w s titleStr bodyStr observationID =
      .ok ({ s with sent := s.sent ++
              [notificationRequest s.tracker titleStr bodyStr observationID] }.print
            ("error sending notification: " ++ toString resp.StatusCode ++ "\n")) := by
  have hreq : NewRequest w "POST" s.tracker.NtfyURL bodyStr =
      .ok { Method := "POST", URL := s.tracker.NtfyURL, Query := [], Header := [],
            Body := bodyStr } := by
    simp [NewRequest, hurl]
  have hchain := SendNotification_request w s titleStr bodyStr observationID _ hreq
  unfold SendNotification
  rw [hreq]
  simp only [hchain, hpost, hstatus, if_true, ne_eq, not_false_eq_true]

/-- A transport error with no response faults `SendNotification`. -/
theorem SendNotification_of_failure (w : World) (s : State) (titleStr bodyStr : String)
    (observationID : Int) (err : String)
    (hpost : ∀ req, w.Post s.sent.length req = .failure err) :
    (SendNotification w s titleStr bodyStr observationID).completed = false := by
  unfold SendNotification
  split
  · rfl
  · simp only [hpost]
    rfl

/-- The loop is entered exactly when the four variables are set and the place id is an
integer: the entries of the taxon list are not examined. -/
theorem startup_ok_iff (env : Env) :
    (∃ s, startup env = .ok s) ↔
      env.NTFY_TOKEN ≠ "" ∧ env.NTFY_URL ≠ "" ∧ env.PLACE_ID ≠ "" ∧ env.TAXON_IDS ≠ "" ∧
        ∃ place, Atoi env.PLACE_ID = .ok place := by
  unfold startup
  simp only [NewTracker]
  by_cases h1 : env.NTFY_TOKEN = ""
  · simp [h1]
  by_cases h2 : env.NTFY_URL = ""
  · simp [h1, h2]
  by_cases h3 : env.PLACE_ID = ""
  · simp [h1, h2, h3]
  by_cases h4 : env.TAXON_IDS = ""
  · simp [h1, h2, h3, h4]
  cases h5 : Atoi env.PLACE_ID with
  | error e => simp [h1, h2, h3, h4]
  | ok p => simp [h1, h2, h3, h4]

theorem toDigitsCore_one (fuel n : Nat) (ds : List Char) (hn : n < 10) (hf : 1 ≤ fuel) :
    Nat.toDigitsCore 10 fuel n ds = Nat.digitChar n :: ds := by
  obtain ⟨f, rfl⟩ : ∃ f, fuel = f + 1 := ⟨fuel - 1, by omega⟩
  have h0 : n / 10 = 0 := by omega
  have h1 : n % 10 = n := by omega
  simp [Nat.toDigitsCore, h0, h1]

theorem toDigitsCore_two (fuel n : Nat) (ds : List Char) (hn : n < 100) (hn' : 10 ≤ n)
    (hf : 2 ≤ fuel) :
    Nat.toDigitsCore 10 fuel n ds = Nat.digitChar (n / 10) :: Nat.digitChar (n % 10) :: ds := by
  obtain ⟨f, rfl⟩ : ∃ f, fuel = f + 1 := ⟨fuel - 1, by omega⟩
  have h0 : n / 10 ≠ 0 := by omega
  simp only [Nat.toDigitsCore, h0, if_false]
  exact toDigitsCore_one f (n / 10) _ (by omega) (by omega)

theorem toDigitsCore_three (fuel n : Nat) (ds : List Char) (hn : n < 1000) (hn' : 100 ≤ n)
    (hf : 3 ≤ fuel) :
    Nat.toDigitsCore 10 fuel n ds =
      Nat.digitChar (n / 100) :: Nat.digitChar (n / 10 % 10) :: Nat.digitChar (n % 10) :: ds := by
  obtain ⟨f, rfl⟩ : ∃ f, fuel = f + 1 := ⟨fuel - 1, by omega⟩
  have h0 : n / 10 ≠ 0 := by omega
  simp only [Nat.toDigitsCore, h0, if_false]
  rw [toDigitsCore_two f (n / 10) _ (by omega) (by omega) (by omega)]
  have h1 : n / 10 / 10 = n / 100 := by omega
  rw [h1]

theorem toDigitsCore_four (fuel n : Nat) (ds : List Char) (hn : n < 10000) (hn' : 1000 ≤ n)
    (hf : 4 ≤ fuel) :
    Nat.toDigitsCore 10 fuel n ds =
      Nat.digitChar (n / 1000) :: Nat.digitChar (n / 100 % 10) ::
        Nat.digitChar (n / 10 % 10) :: Nat.digitChar (n % 10) :: ds := by
  obtain ⟨f, rfl⟩ : ∃ f, fuel = f + 1 := ⟨fuel - 1, by omega⟩
  have h0 : n / 10 ≠ 0 := by omega
  simp only [Nat.toDigitsCore, h0, if_false]
  rw [toDigitsCore_three f (n / 10) _ (by omega) (by omega) (by omega)]
  have h1 : n / 10 / 100 = n / 1000 := by omega
  have h2 : n / 10 / 10 % 10 = n / 100 % 10 := by omega
  rw [h1, h2]

theorem digitChar_zero : Nat.digitChar 0 = '0' := rfl

theorem appendInt_two (n : Nat) (hn : n < 100) : appendInt n 2 = twoDigits n := by
  unfold appendInt twoDigits Nat.toDigits
  by_cases h : n < 10
  · rw [toDigitsCore_one (n + 1) n [] h (by omega)]
    have h0 : n / 10 = 0 := by omega
    have h1 : n % 10 = n := by omega
    simp [h0, h1, List.replicate, digitChar_zero]
  · rw [toDigitsCore_two (n + 1) n [] hn (by omega) (by omega)]
    simp

theorem appendInt_four (n : Nat) (hn : n < 10000) :
    appendInt n 4 =
      [Nat.digitChar (n / 1000), Nat.digitChar (n / 100 % 10), Nat.digitChar (n / 10 % 10),
        Nat.digitChar (n % 10)] := by
  unfold appendInt Nat.toDigits
  by_cases h1 : n < 10
  · rw [toDigitsCore_one (n + 1) n [] h1 (by omega)]
    have e0 : n / 1000 = 0 := by omega
    have e1 : n / 100 % 10 = 0 := by omega
    have e2 : n / 10 % 10 = 0 := by omega
    have e3 : n % 10 = n := by omega
    simp [e0, e1, e2, e3, List.replicate, digitChar_zero]
  by_cases h2 : n < 100
  · rw [toDigitsCore_two (n + 1) n [] h2 (by omega) (by omega)]
    have e0 : n / 1000 = 0 := by omega
    have e1 : n / 100 % 10 = 0 := by omega
    have e2 : n / 10 % 10 = n / 10 := by omega
    simp [e0, e1, e2, List.replicate, digitChar_zero]
  by_cases h3 : n < 1000
  · rw [toDigitsCore_three (n + 1) n [] h3 (by omega) (by omega)]
    have e0 : n / 1000 = 0 := by omega
    have e1 : n / 100 % 10 = n / 100 := by omega
    simp [e0, e1, List.replicate, digitChar_zero]
  · rw [toDigitsCore_four (n + 1) n [] hn (by omega) (by omega)]
    simp

/-- The layout `2006-01-02 15:04:05` yields the text `YYYY-MM-DD HH:MM:SS`. -/
theorem Format_stamp (t : Time) (ht : t.InRange) :
    t.Format "2006-01-02 15:04:05" = String.mk (stampYMDHMS t) := by
  obtain ⟨hy, -, hmo, -, hd, hh, hmi, hs⟩ := ht
  have hl : "2006-01-02 15:04:05".data =
      ['2', '0', '0', '6', '-', '0', '1', '-', '0', '2', ' ', '1', '5', ':', '0', '4', ':',
        '0', '5'] := by decide
  unfold Time.Format
  rw [hl]
  simp only [formatLayout]
  rw [appendInt_four t.Year (by omega), appendInt_two t.Month (by omega),
    appendInt_two t.Day (by omega), appendInt_two t.Hour (by omega),
    appendInt_two t.Minute (by omega), appendInt_two t.Second (by omega)]
  simp [stampYMDHMS]

theorem SendNotification_sent (w : World) (s : State) (titleStr bodyStr : String)
    (observationID : Int) (hurl : w.urlParses s.tracker.NtfyURL = true) :
    (SendNotification w s titleStr bodyStr observationID).state.sent =
      s.sent ++ [notificationRequest s.tracker titleStr bodyStr observationID] := by
  have hreq : NewRequest w "POST" s.tracker.NtfyURL bodyStr =
      .ok { Method := "POST", URL := s.tracker.NtfyURL, Query := [], Header := [],
            Body := bodyStr } := by
    simp [NewRequest, hurl]
  have hchain := SendNotification_request w s titleStr bodyStr observationID _ hreq
  unfold SendNotification
  rw [hreq]
  simp only [hchain]
  split
  · rfl
  · split <;> rfl
  · split <;> rfl

theorem processRecord_sent_of_new (w : World) (s : State) (o : APIResponseResult)
    (hnew : isNew s.firstRun s.tracker.SeenUUID o = true)
    (hurl : w.urlParses s.tracker.NtfyURL = true) :
    (processRecord w s o).state.sent = s.sent ++ [requestFor s.tracker o] := by
  have hs := SendNotification_sent w s (nTitle o) (nBody o) o.ID hurl
  unfold processRecord
  rw [isNew_eq, hnew]
  simp only [if_true]
  cases hsn : SendNotification w s (nTitle o) (nBody o) o.ID with
  | ok s₁ => rw [hsn] at hs; simpa [Exec.state, State.print, requestFor] using hs
  | panic s₁ => rw [hsn] at hs; simpa [Exec.state, requestFor] using hs

theorem processRecord_thisRun_irrelevant (w : World) (s : State) (o : APIResponseResult)
    (U : Finset String) :
    (processRecord w { s with thisRunUUID := U } o).state.sent =
        (processRecord w s o).state.sent ∧
    (processRecord w { s with thisRunUUID := U } o).completed =
        (processRecord w s o).completed := by
  unfold processRecord SendNotification
  simp only [State.print]
  by_cases hc : (!s.firstRun && !s.tracker.Seen o.UUID) = true
  · simp only [hc, if_true]
    cases hreq : NewRequest w "POST" s.tracker.NtfyURL (nBody o) with
    | error err => exact ⟨rfl, rfl⟩
    | ok req =>
      simp only []
      generalize w.Post s.sent.length _ = r
      cases r with
      | response resp => by_cases h : resp.StatusCode = 200 <;> simp [h, Exec.state, Exec.completed]
      | failure err => exact ⟨rfl, rfl⟩
      | redirectFailure resp err =>
        by_cases h : resp.StatusCode = 200 <;> simp [h, Exec.state, Exec.completed]
  · simp only [hc]
    exact ⟨rfl, rfl⟩

theorem pollCycle_tracker (w : World) (s s' : State) (h : pollCycle w s = .ok s') :
    s'.tracker.PlaceID = s.tracker.PlaceID ∧ s'.tracker.NtfyURL = s.tracker.NtfyURL ∧
    s'.tracker.TaxonIDs = s.tracker.TaxonIDs ∧ s'.tracker.NtfyToken = s.tracker.NtfyToken := by
  unfold pollCycle at h
  have ht := (classify_processes w s).1
  cases hc : classify w s with
  | ok s₁ =>
    rw [hc] at h ht
    simp only [andThen_ok, Exec.ok.injEq] at h
    simp only [Exec.state] at ht
    subst h
    simp [install, ht]
  | panic s₁ =>
    rw [hc] at h
    cases h

theorem loop_completes (w : World) (n : Nat) (s : State)
    (hf : Fetches w s.tracker.PlaceID) (hurl : w.urlParses s.tracker.NtfyURL = true)
    (hpost : ∀ k req err, w.Post k req ≠ .failure err) :
    ∃ s', loop w n s = .ok s' := by
  induction n generalizing s with
  | zero => exact ⟨s, rfl⟩
  | succ n ih =>
    obtain ⟨s₁, hs₁⟩ := pollCycle_completes w s hf (Or.inr ⟨hurl, hpost⟩)
    obtain ⟨hp, hu, -⟩ := pollCycle_tracker w s s₁ hs₁
    obtain ⟨s₂, hs₂⟩ := ih s₁ (by rw [hp]; exact hf) (by rw [hu]; exact hurl)
    exact ⟨s₂, by simp [loop, hs₁, hs₂]⟩

theorem pollCycle_state_firstRun (w : World) (s : State) (h : s.firstRun = false) :
    (pollCycle w s).state.firstRun = false := by
  have hf := (classify_processes w s).2.1
  unfold pollCycle
  cases hc : classify w s with
  | ok s₁ => rfl
  | panic s₁ =>
    rw [hc] at hf
    simp only [Exec.state] at hf
    simpa [Exec.state, h] using hf

theorem loop_state_firstRun (w : World) (n : Nat) (s : State) (h : s.firstRun = false) :
    (loop w n s).state.firstRun = false := by
  induction n generalizing s with
  | zero => exact h
  | succ n ih =>
    have hp := pollCycle_state_firstRun w s h
    unfold loop
    cases hc : pollCycle w s with
    | ok s₁ =>
      rw [hc] at hp
      simp only [andThen_ok]
      exact ih s₁ hp
    | panic s₁ =>
      rw [hc] at hp
      exact hp

theorem loop_succ_firstRun (w : World) (n : Nat) (s s' : State)
    (h : loop w (n + 1) s = .ok s') : s'.firstRun = false := by
  induction n generalizing s with
  | zero =>
    unfold loop at h
    cases hp : pollCycle w s with
    | ok s₁ =>
      rw [hp] at h
      simp only [andThen_ok, loop, Exec.ok.injEq] at h
      subst h
      exact (pollCycle_ok w s s₁ hp).2.1
    | panic s₁ => rw [hp] at h; cases h
  | succ n ih =>
    unfold loop at h
    cases hp : pollCycle w s with
    | ok s₁ =>
      rw [hp] at h
      simp only [andThen_ok] at h
      exact ih s₁ h
    | panic s₁ => rw [hp] at h; cases h

/-- The requests of a cycle after the first, with `S` the tracker's set at its start: the
expected sequence is that of the fetched records, target by target in the configured order
and within a target in the order received, restricted to the records whose UUID is not in
`S`, one request per occurrence.  A cycle that stops at a fault has sent an initial segment
of that sequence; a cycle that runs to its end has sent all of it; and the cycle runs to
its end whenever every fetch returns a decoded reply and no send faults. -/
theorem later_cycle_requests (w : World) (s : State)
    (hrun : s.firstRun = false) :
    (∃ l, l <+: ((fetchedRecords w s.tracker.PlaceID s.gets s.tracker.TaxonIDs).filter
          (fun o => decide (o.UUID ∉ s.tracker.SeenUUID))).map (requestFor s.tracker) ∧
      (pollCycle w s).state.sent = s.sent ++ l) ∧
    (∀ s', pollCycle w s = .ok s' →
      s'.sent = s.sent ++
        ((fetchedRecords w s.tracker.PlaceID s.gets s.tracker.TaxonIDs).filter
          (fun o => decide (o.UUID ∉ s.tracker.SeenUUID))).map (requestFor s.tracker)) ∧
    (Fetches w s.tracker.PlaceID → Delivers w s → ∃ s', pollCycle w s = .ok s') := by
  have hexp : ∀ rs, expectedRequests s rs =
      (rs.filter (fun o => decide (o.UUID ∉ s.tracker.SeenUUID))).map
        (requestFor s.tracker) := by
    intro rs
    have hfun : isNew false s.tracker.SeenUUID =
        fun o => decide (o.UUID ∉ s.tracker.SeenUUID) := by
      funext o
      simp [isNew]
    rw [expectedRequests, hrun, hfun]
  refine ⟨?_, ?_, pollCycle_completes w s⟩
  · obtain ⟨l, hl, hl'⟩ := pollCycle_sent_prefix w s
    exact ⟨l, by rw [← hexp]; exact hl, hl'⟩
  · intro s' hs'
    rw [← hexp]
    exact (pollCycle_ok w s s' hs').2.2

/-- After a fetch of A, B, C the next fetch returns A, B, D; exactly one request is sent, the
one for D. -/
theorem later_cycle_requests_example :
    (laterState [43236] {"A", "B", "C"}).firstRun = false ∧
    (pollCycle (worldOf ["abd"]) (laterState [43236] {"A", "B", "C"})).state.sent =
      [requestFor sampleTracker (sampleRecord "D" 4)] :=
  ⟨rfl,
    (((later_cycle_requests (worldOf ["abd"])
      (laterState [43236] {"A", "B", "C"}) rfl).2.1
      (pollCycle (worldOf ["abd"]) (laterState [43236] {"A", "B", "C"})).state rfl)).trans
      (by decide)⟩

/-- In a world built by `worldOf` from one known body every fetch returns a decoded reply. -/
theorem worldOf_fetches (place : Int) : Fetches (worldOf ["abd"]) place := by
  intro k taxon
  cases k with
  | zero => exact ⟨_, rfl⟩
  | succ k => exact ⟨_, rfl⟩

/-- In a world built by `worldOf` no send faults. -/
theorem worldOf_delivers (bodies : List String) (s : State) : Delivers (worldOf bodies) s := by
  refine Or.inr ⟨rfl, ?_⟩
  intro k req err h
  simp [worldOf, okReply] at h

/-! ## The claims -/

/-- C1: after a poll cycle that runs to its end, the tracker's `SeenUUID` is exactly the set
of UUIDs of the records fetched for all targets in that cycle: a UUID is in the new set if
and only if some fetched record carries it, so a UUID of the old set that was not fetched
again is gone and no fetched UUID is missing.  The cycle does run to its end whenever every
fetch returns a decoded reply and no send faults. -/
theorem seenUUID_eq_fetched_uuids (w : World) (s : State) :
    (∀ s', pollCycle w s = .ok s' →
      s'.tracker.SeenUUID =
        uuidSet (fetchedRecords w s.tracker.PlaceID s.gets s.tracker.TaxonIDs) ∧
      (∀ u, u ∈ s'.tracker.SeenUUID ↔
        ∃ o ∈ fetchedRecords w s.tracker.PlaceID s.gets s.tracker.TaxonIDs, o.UUID = u) ∧
      (∀ u ∈ s.tracker.SeenUUID,
        (∀ o ∈ fetchedRecords w s.tracker.PlaceID s.gets s.tracker.TaxonIDs, o.UUID ≠ u) →
        u ∉ s'.tracker.SeenUUID)) ∧
    (Fetches w s.tracker.PlaceID → Delivers w s → ∃ s', pollCycle w s = .ok s') := by
  refine ⟨?_, pollCycle_completes w s⟩
  intro s' h
  have hset := (pollCycle_ok w s s' h).1
  have hmem : ∀ u, u ∈ s'.tracker.SeenUUID ↔
      ∃ o ∈ fetchedRecords w s.tracker.PlaceID s.gets s.tracker.TaxonIDs, o.UUID = u := by
    intro u
    rw [hset]
    simp [uuidSet]
  refine ⟨hset, hmem, ?_⟩
  intro u _ hnot hu
  obtain ⟨o, ho, hou⟩ := (hmem u).1 hu
  exact hnot o ho hou

/-- Witness for C1: with the set {A, B, C} live and a fetch returning A, B, D, the cycle
ends and installs {A, B, D}; C is dropped. -/
theorem seenUUID_eq_fetched_uuids_witness :
    pollCycle (worldOf ["abd"]) (laterState [43236] {"A", "B", "C"}) =
        .ok (pollCycle (worldOf ["abd"]) (laterState [43236] {"A", "B", "C"})).state ∧
    (pollCycle (worldOf ["abd"]) (laterState [43236] {"A", "B", "C"})).state.tracker.SeenUUID =
      {"A", "B", "D"} ∧
    "C" ∉ (pollCycle (worldOf ["abd"])
      (laterState [43236] {"A", "B", "C"})).state.tracker.SeenUUID ∧
    (∃ s', pollCycle (worldOf ["abd"]) (laterState [43236] {"A", "B", "C"}) = .ok s') :=
  ⟨rfl,
    (((seenUUID_eq_fetched_uuids (worldOf ["abd"]) (laterState [43236] {"A", "B", "C"})).1
      (pollCycle (worldOf ["abd"]) (laterState [43236] {"A", "B", "C"})).state rfl).1).trans
      (by decide),
    ((seenUUID_eq_fetched_uuids (worldOf ["abd"]) (laterState [43236] {"A", "B", "C"})).1
      (pollCycle (worldOf ["abd"]) (laterState [43236] {"A", "B", "C"})).state rfl).2.2
      "C" (by decide) (by decide),
    (seenUUID_eq_fetched_uuids (worldOf ["abd"]) (laterState [43236] {"A", "B", "C"})).2
      (worldOf_fetches 6744) (worldOf_delivers ["abd"] _)⟩

/-- C2: in a cycle after the first (the flag is cleared), processing a record whose UUID is
in the tracker's set sends nothing, prints nothing and cannot fault: it only adds the UUID
to the set of this run.  Over a whole cycle, whatever its outcome, every request sent
comes from a fetched record whose UUID is not in that set. -/
theorem seen_record_sends_nothing (w : World) (s : State) (o : APIResponseResult)
    (hrun : s.firstRun = false) (hseen : o.UUID ∈ s.tracker.SeenUUID) :
    processRecord w s o = .ok { s with thisRunUUID := insert o.UUID s.thisRunUUID } ∧
    (∀ req ∈ (pollCycle w s).state.sent, req ∈ s.sent ∨
      ∃ o' ∈ fetchedRecords w s.tracker.PlaceID s.gets s.tracker.TaxonIDs,
        o'.UUID ∉ s.tracker.SeenUUID ∧ req = requestFor s.tracker o') := by
  constructor
  · unfold processRecord
    simp [hrun, Tracker.Seen, hseen]
  · intro req hreq
    obtain ⟨l, hl, hsent⟩ := pollCycle_sent_prefix w s
    rw [hsent, List.mem_append] at hreq
    rcases hreq with h | h
    · exact Or.inl h
    · right
      have hmem := hl.subset h
      simp only [expectedRequests, List.mem_map, List.mem_filter] at hmem
      obtain ⟨o', ⟨ho', hnew⟩, rfl⟩ := hmem
      refine ⟨o', ho', ?_, rfl⟩
      simpa [isNew, hrun] using hnew

/-- Witness for C2: record A is in the live set {A, B, C}; processing it changes only the
set of this run. -/
theorem seen_record_sends_nothing_witness :
    processRecord (worldOf ["abd"]) (laterState [43236] {"A", "B", "C"}) (sampleRecord "A" 1) =
      .ok { laterState [43236] {"A", "B", "C"} with thisRunUUID := {"A"} } :=
  (seen_record_sends_nothing (worldOf ["abd"]) (laterState [43236] {"A", "B", "C"})
    (sampleRecord "A" 1) rfl (by decide)).1

/-- C3: the first poll cycle after startup sends no notification, whatever the fetches
return and whether or not the cycle reaches its end; when it reaches its end the installed
set is exactly the set of fetched UUIDs; and it does reach its end whenever every fetch
returns a decoded reply. -/
theorem first_cycle_is_silent (env : Env) (w : World) (s : State)
    (hstart : startup env = .ok s) :
    (pollCycle w s).state.sent = [] ∧
    (∀ s', pollCycle w s = .ok s' →
      s'.tracker.SeenUUID =
        uuidSet (fetchedRecords w s.tracker.PlaceID 0 s.tracker.TaxonIDs) ∧
      ∀ o ∈ fetchedRecords w s.tracker.PlaceID 0 s.tracker.TaxonIDs,
        o.UUID ∈ s'.tracker.SeenUUID) ∧
    (Fetches w s.tracker.PlaceID → ∃ s', pollCycle w s = .ok s') := by
  obtain ⟨hfirst, -, hsent, hgets⟩ := startup_firstRun env s hstart
  have hexp : ∀ rs, expectedRequests s rs = [] := by
    intro rs
    simp [expectedRequests, isNew, hfirst]
  refine ⟨?_, ?_, ?_⟩
  · obtain ⟨l, hl, hl'⟩ := pollCycle_sent_prefix w s
    rw [hexp] at hl
    rw [hl', hsent, List.prefix_nil.1 hl]
    rfl
  · intro s' hs'
    have hset := (pollCycle_ok w s s' hs').1
    rw [hgets] at hset
    refine ⟨hset, ?_⟩
    intro o ho
    rw [hset]
    simp only [uuidSet, List.mem_toFinset, List.mem_map]
    exact ⟨o, ho, rfl⟩
  · intro hf
    exact pollCycle_completes w s hf (Or.inl hfirst)

/-- Witness for C3: started from `sampleEnv`, a first cycle that fetches A, B, C sends nothing
and installs {A, B, C}. -/
theorem first_cycle_is_silent_witness :
    startup sampleEnv = .ok sampleStart ∧
    (pollCycle (worldOf ["abc"]) sampleStart).state.sent = [] ∧
    (pollCycle (worldOf ["abc"]) sampleStart).state.tracker.SeenUUID = {"A", "B", "C"} :=
  ⟨rfl, (first_cycle_is_silent sampleEnv (worldOf ["abc"]) sampleStart rfl).1,
    (((first_cycle_is_silent sampleEnv (worldOf ["abc"]) sampleStart rfl).2.1
      (pollCycle (worldOf ["abc"]) sampleStart).state rfl).1).trans (by decide)⟩

/-- C4 (code diverges): two targets 1 and 2 in a later cycle; the fetch for target 1 is
answered with status 500, so `GetObservation` returns an error.  The error is printed and
the nil reply is then dereferenced: the cycle faults after one fetch, target 2 is never
fetched and no set is installed.  Without target 1 the same cycle fetches D for target 2,
notifies it and installs {D}. -/
theorem fetch_error_faults_the_cycle :
    GetObservation fetchErrorWorld 0 1 6744 =
      .error "error getting observations: status code is not 200 ( 500 )" ∧
    (pollCycle fetchErrorWorld (laterState [1, 2] ∅)).completed = false ∧
    (pollCycle fetchErrorWorld (laterState [1, 2] ∅)).state.gets = 1 ∧
    (pollCycle fetchErrorWorld (laterState [1, 2] ∅)).state.sent = [] ∧
    (pollCycle (worldOf ["d"]) (laterState [2] ∅)).completed = true ∧
    (pollCycle (worldOf ["d"]) (laterState [2] ∅)).state.sent =
      [requestFor sampleTracker (sampleRecord "D" 4)] ∧
    (pollCycle (worldOf ["d"]) (laterState [2] ∅)).state.tracker.SeenUUID = {"D"} :=
  ⟨rfl, by decide, by decide, by decide, by decide, by decide, by decide⟩

/-- C5 (code diverges): a later cycle with an empty live set fetches the records D and E;
`client.Do` fails for the notification of D with a transport error and no response.  The
error is printed and the nil response is then dereferenced: `SendNotification` does not
return, the cycle stops, E is never processed, and no set is installed (D is not even in
the set of this run).  When the notifications are answered with status 503 instead, the
failure is only printed: both requests are sent and the set {D, E} is installed. -/
theorem transport_error_faults_the_cycle :
    (SendNotification sendFailureWorld (laterState [43236] ∅) (nTitle (sampleRecord "D" 4))
      (nBody (sampleRecord "D" 4)) 4).completed = false ∧
    (pollCycle sendFailureWorld (laterState [43236] ∅)).completed = false ∧
    (pollCycle sendFailureWorld (laterState [43236] ∅)).state.sent =
      [requestFor sampleTracker (sampleRecord "D" 4)] ∧
    (pollCycle sendFailureWorld (laterState [43236] ∅)).state.thisRunUUID = ∅ ∧
    (pollCycle sendFailureWorld (laterState [43236] ∅)).state.tracker.SeenUUID = ∅ ∧
    (pollCycle sendRejectedWorld (laterState [43236] ∅)).completed = true ∧
    (pollCycle sendRejectedWorld (laterState [43236] ∅)).state.sent =
      [requestFor sampleTracker (sampleRecord "D" 4),
       requestFor sampleTracker (sampleRecord "E" 5)] ∧
    (pollCycle sendRejectedWorld (laterState [43236] ∅)).state.tracker.SeenUUID =
      {"D", "E"} :=
  ⟨by decide, by decide, by decide, by decide, by decide, by decide, by decide, by decide⟩

/-- C6 (code diverges): with the token, the URL and the place id set and the taxon list
`"1, 2"`, the entry `" 2"` is not an integer and `AddID` returns an error for it, but the
error is dropped: `main` enters the loop, tracking taxon 1 only. -/
theorem unparseable_taxon_enters_the_loop :
    Split spacedEnv.TAXON_IDS = ["1", " 2"] ∧
    (sampleTracker.AddID " 2").2 = some "invalid syntax" ∧
    startup spacedEnv =
      .ok { sampleStart with tracker := { sampleTracker with TaxonIDs := [1] } } ∧
    (main spacedEnv (worldOf ["abc"]) 1).isSome = true :=
  ⟨by decide, by decide, rfl, by decide⟩

/-- C7 (code diverges): a later cycle with the live set {A, B, C} fetches the records D and
E, both with a UUID outside the set, so the expected requests are those for D and for E, in
this order.  `client.Do` fails for the notification of D with a transport error and no
response, and `SendNotification` faults on the nil response: the cycle stops having sent the
request for D only, and the record E is never notified. -/
theorem send_fault_truncates_notifications :
    (laterState [43236] {"A", "B", "C"}).firstRun = false ∧
    fetchedRecords sendFailureWorld 6744 0 [43236] =
      [sampleRecord "D" 4, sampleRecord "E" 5] ∧
    ((fetchedRecords sendFailureWorld 6744 0 [43236]).filter
        (fun o => decide (o.UUID ∉ ({"A", "B", "C"} : Finset String)))).map
        (requestFor sampleTracker) =
      [requestFor sampleTracker (sampleRecord "D" 4),
       requestFor sampleTracker (sampleRecord "E" 5)] ∧
    (pollCycle sendFailureWorld (laterState [43236] {"A", "B", "C"})).state.sent =
      [requestFor sampleTracker (sampleRecord "D" 4)] ∧
    (pollCycle sendFailureWorld (laterState [43236] {"A", "B", "C"})).completed = false :=
  ⟨rfl, by decide, by decide, by decide, by decide⟩

/-- C8: the request sent for a notified record carries the title made of the subject's
display name followed by `" Observation"`; its body is the five labelled lines observed-on
date, creation time as `YYYY-MM-DD HH:MM:SS`, location, obscured indicator and quality
grade, in this order; the indicator is `"yes"` exactly when the record's obscured flag is
set and `"no"` otherwise; and its action opens
`https://www.inaturalist.org/observations/` followed by the record's numeric id. -/
theorem notification_content (w : World) (s : State) (o : APIResponseResult)
    (hnew : isNew s.firstRun s.tracker.SeenUUID o = true)
    (hurl : w.urlParses s.tracker.NtfyURL = true) (ht : o.CreatedAt.InRange) :
    (processRecord w s o).state.sent = s.sent ++ [requestFor s.tracker o] ∧
    (requestFor s.tracker o).Get "Title" =
      some (o.TaxonPreferredCommonName ++ " Observation") ∧
    (requestFor s.tracker o).Body =
      "Observed On: " ++ o.ObservedOn ++ "\nCreated At: " ++
        String.mk (stampYMDHMS o.CreatedAt) ++ "\nLocation: " ++ o.PlaceGuess ++
        "\nObscured: " ++ o.ObscuredAsString ++ "\nQuality: " ++ o.QualityGrade ∧
    (o.ObscuredAsString = "yes" ↔ o.Obscured = true) ∧
    (o.ObscuredAsString = "no" ↔ o.Obscured = false) ∧
    (requestFor s.tracker o).Get "Actions" =
      some ("view, Open Observation, https://www.inaturalist.org/observations/" ++
        toString o.ID ++ ", clear=true") := by
  refine ⟨processRecord_sent_of_new w s o hnew hurl, ?_, ?_, ?_, ?_, ?_⟩
  · simp [requestFor, notificationRequest, Request.Get, nTitle]
  · simp only [requestFor, notificationRequest, nBody]
    rw [Format_stamp o.CreatedAt ht]
  · unfold APIResponseResult.ObscuredAsString
    cases o.Obscured <;> simp
  · unfold APIResponseResult.ObscuredAsString
    cases o.Obscured <;> simp
  · have hne : ("Title" = "Actions") = False := by decide
    simp [requestFor, notificationRequest, Request.Get, actionsHeader, hne]

/-- Witness for C8: the request for the record D with id 4, created 2024-03-09 07:05:02. -/
theorem notification_content_witness :
    (requestFor sampleTracker (sampleRecord "D" 4)).Get "Title" = some "Platypus Observation" ∧
    (requestFor sampleTracker (sampleRecord "D" 4)).Body =
      "Observed On: 2024-03-09\nCreated At: 2024-03-09 07:05:02\nLocation: Hobart\nObscured: no\nQuality: research" ∧
    (requestFor sampleTracker (sampleRecord "D" 4)).Get "Actions" =
      some "view, Open Observation, https://www.inaturalist.org/observations/4, clear=true" :=
  ⟨(notification_content (worldOf ["d"]) (laterState [43236] ∅) (sampleRecord "D" 4)
      (by decide) rfl (by decide)).2.1.trans (by decide),
    (notification_content (worldOf ["d"]) (laterState [43236] ∅) (sampleRecord "D" 4)
      (by decide) rfl (by decide)).2.2.1.trans (by decide),
    (notification_content (worldOf ["d"]) (laterState [43236] ∅) (sampleRecord "D" 4)
      (by decide) rfl (by decide)).2.2.2.2.2.trans (by decide)⟩

/-- C9: during the classification of a cycle the tracker's set and the first-run flag never
change, and whether a record is notified is decided by the flag and that set alone: it
does not depend on the set of this run, hence not on the records processed earlier in the
cycle.  So, in a cycle after the first that runs to its end, a UUID that is not in the
live set is notified once for each of its occurrences in the fetched records, under
whichever targets they occur. -/
theorem classification_uses_live_set_only (w : World) (s : State) :
    (∀ taxa, (forTaxa w s taxa).state.tracker = s.tracker ∧
      (forTaxa w s taxa).state.firstRun = s.firstRun) ∧
    (∀ rs, (forResults w s rs).state.tracker = s.tracker ∧
      (forResults w s rs).state.firstRun = s.firstRun) ∧
    (∀ o U, (processRecord w { s with thisRunUUID := U } o).state.sent =
        (processRecord w s o).state.sent ∧
      (processRecord w { s with thisRunUUID := U } o).completed =
        (processRecord w s o).completed) ∧
    (∀ o, isNew s.firstRun s.tracker.SeenUUID o = false →
      processRecord w s o = .ok { s with thisRunUUID := insert o.UUID s.thisRunUUID }) ∧
    (∀ o, isNew s.firstRun s.tracker.SeenUUID o = true →
      w.urlParses s.tracker.NtfyURL = true →
      (processRecord w s o).state.sent = s.sent ++ [requestFor s.tracker o]) ∧
    (s.firstRun = false → ∀ s', pollCycle w s = .ok s' →
      s'.sent = s.sent ++
        ((fetchedRecords w s.tracker.PlaceID s.gets s.tracker.TaxonIDs).filter
          (fun o => decide (o.UUID ∉ s.tracker.SeenUUID))).map (requestFor s.tracker) ∧
      ∀ u, u ∉ s.tracker.SeenUUID →
        ((fetchedRecords w s.tracker.PlaceID s.gets s.tracker.TaxonIDs).filter
          (fun o => decide (o.UUID ∉ s.tracker.SeenUUID))).countP (fun o => o.UUID = u) =
        (fetchedRecords w s.tracker.PlaceID s.gets s.tracker.TaxonIDs).countP
          (fun o => o.UUID = u)) ∧
    (Fetches w s.tracker.PlaceID → Delivers w s → ∃ s', pollCycle w s = .ok s') := by
  refine ⟨fun taxa => ?_, fun rs => ?_, processRecord_thisRun_irrelevant w s,
    fun o ho => ?_, fun o ho hurl => processRecord_sent_of_new w s o ho hurl, ?_,
    pollCycle_completes w s⟩
  · obtain ⟨ht, hf, -⟩ := forTaxa_processes w taxa s
    exact ⟨ht, hf⟩
  · obtain ⟨ht, hf, -⟩ := forResults_processes w rs s
    exact ⟨ht, hf⟩
  · unfold processRecord
    rw [isNew_eq, ho]
    rfl
  · intro hrun s' hs'
    have hfun : isNew false s.tracker.SeenUUID =
        fun o => decide (o.UUID ∉ s.tracker.SeenUUID) := by
      funext o
      simp [isNew]
    refine ⟨?_, ?_⟩
    · have h := (pollCycle_ok w s s' hs').2.2
      rw [expectedRequests, hrun, hfun] at h
      exact h
    · intro u hu
      rw [List.countP_filter]
      apply List.countP_congr
      intro o _
      by_cases hou : o.UUID = u
      · simp [hou, hu]
      · simp [hou]

/-- Witness for C9: the live set is empty and the two targets 1 and 2 both return the record
D; the cycle sends the request for D twice. -/
theorem classification_uses_live_set_only_witness :
    (laterState [1, 2] ∅).firstRun = false ∧
    (pollCycle (worldOf ["d", "d"]) (laterState [1, 2] ∅)).state.sent =
      [requestFor sampleTracker (sampleRecord "D" 4),
       requestFor sampleTracker (sampleRecord "D" 4)] :=
  ⟨rfl,
    (((classification_uses_live_set_only (worldOf ["d", "d"])
      (laterState [1, 2] ∅)).2.2.2.2.2.1 rfl
      (pollCycle (worldOf ["d", "d"]) (laterState [1, 2] ∅)).state rfl).1).trans (by decide)⟩

/-- C10: the first-run flag is true when the loop is entered and stays true during the whole
classification of the first cycle; it is cleared together with the installation of the set
at the end of that cycle; after any number `n` of completed cycles it is true exactly when
`n = 0`, so it is false during the classification of every later cycle; and once the first
cycle has ended it is false in every later state of the run, a faulting one included. -/
theorem firstRun_cleared_once (env : Env) (w : World) (s₀ : State)
    (hstart : startup env = .ok s₀) :
    s₀.firstRun = true ∧
    (∀ taxa, (forTaxa w { s₀ with thisRunUUID := ∅ } taxa).state.firstRun = true) ∧
    (classify w s₀).state.firstRun = true ∧
    (∀ s₁, classify w s₀ = .ok s₁ →
      pollCycle w s₀ = .ok (install s₁) ∧ (install s₁).firstRun = false ∧
      (install s₁).tracker.SeenUUID = s₁.thisRunUUID) ∧
    (∀ n s, loop w n s₀ = .ok s → (s.firstRun = true ↔ n = 0)) ∧
    (∀ n s, loop w (n + 1) s₀ = .ok s →
      ∀ taxa, (forTaxa w { s with thisRunUUID := ∅ } taxa).state.firstRun = false) ∧
    (∀ s₁, pollCycle w s₀ = .ok s₁ → ∀ n, (loop w (n + 1) s₀).state.firstRun = false) ∧
    (Fetches w s₀.tracker.PlaceID → w.urlParses s₀.tracker.NtfyURL = true →
      (∀ k req err, w.Post k req ≠ .failure err) → ∀ n, ∃ s, loop w n s₀ = .ok s) := by
  have hfirst := (startup_firstRun env s₀ hstart).1
  refine ⟨hfirst, ?_, ?_, ?_, ?_, ?_, ?_,
    fun hf hurl hpost n => loop_completes w n s₀ hf hurl hpost⟩
  · intro taxa
    rw [(forTaxa_processes w taxa { s₀ with thisRunUUID := ∅ }).2.1]
    exact hfirst
  · rw [(classify_processes w s₀).2.1]
    exact hfirst
  · intro s₁ hs₁
    exact ⟨by simp [pollCycle, hs₁], rfl, rfl⟩
  · intro n s hs
    cases n with
    | zero =>
      simp only [loop, Exec.ok.injEq] at hs
      subst hs
      simp [hfirst]
    | succ n =>
      have := loop_succ_firstRun w n s₀ s hs
      simp [this]
  · intro n s hs taxa
    rw [(forTaxa_processes w taxa { s with thisRunUUID := ∅ }).2.1]
    exact loop_succ_firstRun w n s₀ s hs
  · intro s₁ hs₁ n
    have h₁ := (pollCycle_ok w s₀ s₁ hs₁).2.1
    have h := loop_state_firstRun w n s₁ h₁
    simpa [loop, hs₁] using h

/-- Witness for C10: started from `sampleEnv`, the flag is true before the first cycle and
false after one and after two cycles. -/
theorem firstRun_cleared_once_witness :
    startup sampleEnv = .ok sampleStart ∧
    sampleStart.firstRun = true ∧
    (loop (worldOf ["abc", "abd"]) 1 sampleStart).state.firstRun = false ∧
    ((loop (worldOf ["abc", "abd"]) 2 sampleStart).state.firstRun = true ↔ 2 = 0) :=
  ⟨rfl, (firstRun_cleared_once sampleEnv (worldOf ["abc", "abd"]) sampleStart rfl).1,
    by decide,
    (firstRun_cleared_once sampleEnv (worldOf ["abc", "abd"]) sampleStart rfl).2.2.2.2.1 2
      (loop (worldOf ["abc", "abd"]) 2 sampleStart).state rfl⟩

end Notifier
